import Mathlib

/-!
Verification of the omg.lol libdns provider (folone/libdns-omglol).

The development shallowly embeds the record data model (`models.go`), the
payload construction (`client.go`, `libdnsRecordToPayload`) and the four
reconciliation operations (`provider.go`) as executable Lean functions.
The HTTP transport is abstracted into a `Store` of response functions; the
operations additionally return the trace of store calls they issue, so that
properties about "which create/update/delete calls happen" can be stated.

Strings are Go strings; the Go standard-library helpers used by the source
(`strings.TrimSuffix`, `strings.HasSuffix`, `strings.SplitN(s, ".", 2)[0]`,
`strings.EqualFold`, `strconv.Atoi`) are modelled on `String` below, each
faithful to its Go definition (ASCII case folding suffices for DNS names).
-/

namespace Omglol

/-- Go `strings.HasSuffix s suf`: `len(s) >= len(suf)` and the final
`len(suf)` bytes of `s` equal `suf`. -/
def goHasSuffix (s suf : String) : Bool :=
  decide (suf.data.length ≤ s.data.length) &&
    (s.data.drop (s.data.length - suf.data.length) == suf.data)

/-- Go `strings.TrimSuffix s suf`: drop one trailing copy of `suf` when
present, otherwise return `s` unchanged. -/
def goTrimSuffix (s suf : String) : String :=
  if goHasSuffix s suf then ⟨s.data.take (s.data.length - suf.data.length)⟩ else s

/-- The first element of Go `strings.SplitN s "." 2`: everything before the
first dot (the whole string when there is no dot). -/
def firstLabel (s : String) : String :=
  ⟨s.data.takeWhile (fun c => c ≠ '.')⟩

/-- ASCII lower-casing of a string, character by character. -/
def lowerStr (s : String) : String :=
  ⟨s.data.map Char.toLower⟩

/-- Go `strings.EqualFold` restricted to ASCII case folding (adequate for
DNS names, which are ASCII). -/
def equalFold (a b : String) : Bool :=
  lowerStr a == lowerStr b

/-- Go `strconv.Atoi`: an optional single sign followed by at least one
decimal digit; anything else is an error (`none`). -/
def goAtoi (s : String) : Option Int :=
  match s.data with
  | [] => none
  | c :: cs =>
    let signDigits : Bool × List Char :=
      if c = '-' then (true, cs)
      else if c = '+' then (false, cs)
      else (false, c :: cs)
    let neg := signDigits.1
    let digits := signDigits.2
    if digits.isEmpty then none
    else if digits.all Char.isDigit then
      let n : Nat := digits.foldl (fun acc d => acc * 10 + (d.toNat - 48)) 0
      some (if neg then -(n : Int) else (n : Int))
    else none

/-- A JSON-decoded dynamically typed value as stored in the `ID` field of
`omglolRecord` (Go `interface{}`): JSON numbers decode to `float64`
(modelled at their integer values), JSON strings to `string`. -/
inductive JsonID where
  | num (n : Int)
  | str (s : String)
  | other (text : String)
deriving DecidableEq

/-- The dynamically typed `TTL` field of `omglolRecord` (Go `interface{}`).
`num` is a JSON number (`float64`), `str` a JSON string, `intVal` a Go `int`
assigned directly by Go code (as `SetRecords` does), `null` an absent
value. -/
inductive TTLValue where
  | num (n : Int)
  | str (s : String)
  | intVal (n : Int)
  | null
deriving DecidableEq

/-- `omglolRecord` from `models.go`: a DNS record as returned by the
omg.lol API. -/
structure OmglolRecord where
  ID : JsonID
  type : String
  name : String
  data : String
  Priority : Option Int := none
  TTL : TTLValue
deriving DecidableEq

/-- `omglolRecordPayload` from `models.go`: the JSON body for create and
update requests. -/
structure OmglolRecordPayload where
  type : String
  name : String
  data : String
  ttl : Int
deriving DecidableEq

/-- `omglolRecord.recordID` from `models.go`: the record ID as a string
regardless of whether the API returned a number (`float64`) or a string. -/
def OmglolRecord.recordID (r : OmglolRecord) : String :=
  match r.ID with
  | .num n => toString n
  | .str s => s
  | .other t => t

/-- `omglolRecord.ttlSeconds` from `models.go`: the TTL as an integer count
of seconds.  The type switch has cases for `float64` and `string` only;
every other dynamic type (including a Go `int`) falls to the 3600
default. -/
def OmglolRecord.ttlSeconds (r : OmglolRecord) : Int :=
  match r.TTL with
  | .num n => n
  | .str s =>
    match goAtoi s with
    | none => 3600
    | some n => n
  | .intVal _ => 3600
  | .null => 3600

/-- A `libdns.RR` record: the provider-agnostic view with a zone-relative
name, a TTL measured in nanoseconds (Go `time.Duration`) and textual type
and data.  `libdns.Record.RR()` on an `RR` value is the identity, so this
structure stands for both. -/
structure LibdnsRR where
  name : String
  ttl : Int
  type : String
  data : String
deriving DecidableEq

/-- Nanoseconds per second (`time.Second` as a `time.Duration` count). -/
def nsPerSec : Int := 1000000000

/-- Model of the libdns library helper `libdns.RelativeName fqdn zone`
(dependency of this repository, not part of it): trim one trailing dot from
`fqdn`, then one trailing copy of the zone without its trailing dot, then
one remaining trailing dot. -/
def relativeName (fqdn zone : String) : String :=
  goTrimSuffix (goTrimSuffix (goTrimSuffix fqdn ".") (goTrimSuffix zone ".")) "."

/-- The zone's first label, used by the provider as the account address
(`strings.SplitN(strings.TrimSuffix(zone, "."), ".", 2)[0]`). -/
def zoneAddress (zone : String) : String :=
  firstLabel (goTrimSuffix zone ".")

/-- The name component computed by `libdnsRecordToPayload` (`client.go`):
relativize the libdns name against the zone; the apex markers `"@"` and
`""` become the bare address, any other relative name is used verbatim. -/
def toProviderName (libdnsName zone : String) : String :=
  let rel := relativeName libdnsName zone
  if rel == "@" || rel == "" then zoneAddress zone else rel

/-- The name component computed by `omglolRecord.toLibdnsRecord`
(`models.go`): append the zone (minus trailing dot) to the provider name,
relativize against the zone, and replace an empty result by `"@"`. -/
def toRelativeName (providerName zone : String) : String :=
  let name := relativeName (providerName ++ "." ++ goTrimSuffix zone ".") zone
  if name == "" then "@" else name

/-- `omglolRecord.toLibdnsRecord` from `models.go`: convert an omg.lol
record into a libdns record (TTL in nanoseconds). -/
def OmglolRecord.toLibdnsRecord (r : OmglolRecord) (zone : String) : LibdnsRR :=
  { name := toRelativeName r.name zone
    ttl := r.ttlSeconds * nsPerSec
    type := r.type
    data := r.data }

/-- `libdnsRecordToPayload` from `client.go`: build the create/update
payload.  The TTL is the duration truncated to whole seconds, replaced by
300 when that truncation is not positive. -/
def libdnsRecordToPayload (record : LibdnsRR) (zone : String) : OmglolRecordPayload :=
  let ttl0 := Int.tdiv record.ttl nsPerSec
  let ttl := if ttl0 ≤ 0 then 300 else ttl0
  { type := record.type
    name := toProviderName record.name zone
    data := record.data
    ttl := ttl }

/-- `namesMatch` from `provider.go`: compare an API-side name with a
payload-side name.  The Go source contains the no-op
`if apiLabel == address { apiLabel = address }`, kept here verbatim. -/
def namesMatch (apiName payloadName zone : String) : Bool :=
  let zoneNoSuffix := goTrimSuffix zone "."
  let address := firstLabel zoneNoSuffix
  let apiLabel := goTrimSuffix apiName ("." ++ address)
  let apiLabel := if apiLabel == address then address else apiLabel
  equalFold apiLabel payloadName || equalFold apiName payloadName

/-- `Provider` from `provider.go`: the configured credentials. -/
structure Provider where
  apiKey : String
  address : String

/-- The record-store collaborator (the omg.lol API behind `client.go`),
abstracted as response functions: the list response, and per-payload /
per-ID outcomes of the create, update and delete endpoints. -/
structure Store where
  listRes : Except String (List OmglolRecord)
  createRes : OmglolRecordPayload → Except String OmglolRecord
  updateRes : String → OmglolRecordPayload → Except String Unit
  deleteRes : String → Except String Unit

/-- One store call issued by an operation, together with the address used
in the request URL. -/
inductive ApiCall where
  | create (address : String) (payload : OmglolRecordPayload)
  | update (address : String) (id : String) (payload : OmglolRecordPayload)
  | delete (address : String) (id : String)
deriving DecidableEq

/-- Result of a mutating operation: the trace of store calls issued, the
returned libdns records, and the error (if any). -/
abbrev OpResult := List ApiCall × List LibdnsRR × Option String

/-- `Provider.GetRecords` from `provider.go`: list the raw records and
convert each one. -/
def getRecords (_p : Provider) (st : Store) (zone : String) :
    Except String (List LibdnsRR) :=
  match st.listRes with
  | .error e => .error e
  | .ok raw => .ok (raw.map (fun r => r.toLibdnsRecord zone))

/-- `Provider.AppendRecords` from `provider.go`: create each record in
turn, stopping at the first failure with the records created so far. -/
def appendRecords (p : Provider) (st : Store) (zone : String) :
    List LibdnsRR → OpResult
  | [] => ([], [], none)
  | record :: rest =>
    let payload := libdnsRecordToPayload record zone
    match st.createRes payload with
    | .error e => ([.create p.address payload], [], some e)
    | .ok result =>
      match appendRecords p st zone rest with
      | (calls, created, err) =>
        (.create p.address payload :: calls,
         result.toLibdnsRecord zone :: created, err)

/-- The per-record loop of `Provider.SetRecords` (`provider.go`), run
against the record list fetched once up front: find the first existing
record with matching type and name; update it (synthesizing the result
from the payload and the matched ID, with the payload's Go-`int` TTL
stored in the dynamically typed TTL field) or create a new one. -/
def setLoop (p : Provider) (st : Store) (zone : String)
    (existing : List OmglolRecord) : List LibdnsRR → OpResult
  | [] => ([], [], none)
  | record :: rest =>
    let payload := libdnsRecordToPayload record zone
    match existing.find? (fun e =>
        equalFold e.type record.type && namesMatch e.name payload.name zone) with
    | some m =>
      match st.updateRes m.recordID payload with
      | .error e => ([.update p.address m.recordID payload], [], some e)
      | .ok _ =>
        let updated : OmglolRecord :=
          { ID := m.ID, type := payload.type, name := payload.name,
            data := payload.data, TTL := .intVal payload.ttl }
        match setLoop p st zone existing rest with
        | (calls, results, err) =>
          (.update p.address m.recordID payload :: calls,
           updated.toLibdnsRecord zone :: results, err)
    | none =>
      match st.createRes payload with
      | .error e => ([.create p.address payload], [], some e)
      | .ok created =>
        match setLoop p st zone existing rest with
        | (calls, results, err) =>
          (.create p.address payload :: calls,
           created.toLibdnsRecord zone :: results, err)

/-- `Provider.SetRecords` from `provider.go`. -/
def setRecords (p : Provider) (st : Store) (zone : String)
    (records : List LibdnsRR) : OpResult :=
  match st.listRes with
  | .error e => ([], [], some e)
  | .ok existing => setLoop p st zone existing records

/-- The combined filter condition of the inner loop of
`Provider.DeleteRecords` (`provider.go`): the three `continue` checks
collapsed into one conjunction — case-insensitive type match, name match,
and (only when the input record carries data) exact data match. -/
def delMatch (zone : String) (record : LibdnsRR) (payloadName : String)
    (e : OmglolRecord) : Bool :=
  equalFold e.type record.type && namesMatch e.name payloadName zone &&
    (record.data == "" || e.data == record.data)

/-- The inner loop of `Provider.DeleteRecords`: scan every existing record,
delete each match, stopping at the first failed delete call. -/
def deleteInner (p : Provider) (st : Store) (zone : String)
    (record : LibdnsRR) (payloadName : String) : List OmglolRecord → OpResult
  | [] => ([], [], none)
  | e :: rest =>
    if delMatch zone record payloadName e then
      match st.deleteRes e.recordID with
      | .error err => ([.delete p.address e.recordID], [], some err)
      | .ok _ =>
        match deleteInner p st zone record payloadName rest with
        | (calls, dels, err) =>
          (.delete p.address e.recordID :: calls,
           e.toLibdnsRecord zone :: dels, err)
    else
      deleteInner p st zone record payloadName rest

/-- The outer loop of `Provider.DeleteRecords`: process each input record
against the full existing list, accumulating deletions and stopping at the
first error. -/
def deleteOuter (p : Provider) (st : Store) (zone : String)
    (existing : List OmglolRecord) : List LibdnsRR → OpResult
  | [] => ([], [], none)
  | record :: rest =>
    let payload := libdnsRecordToPayload record zone
    match deleteInner p st zone record payload.name existing with
    | (calls1, dels1, some e) => (calls1, dels1, some e)
    | (calls1, dels1, none) =>
      match deleteOuter p st zone existing rest with
      | (calls2, dels2, err) => (calls1 ++ calls2, dels1 ++ dels2, err)

/-- `Provider.DeleteRecords` from `provider.go`. -/
def deleteRecords (p : Provider) (st : Store) (zone : String)
    (records : List LibdnsRR) : OpResult :=
  match st.listRes with
  | .error e => ([], [], some e)
  | .ok existing => deleteOuter p st zone existing records

end Omglol

namespace Omglol

/-! ### String lemmas about the Go helpers -/

lemma strData_append (a b : String) : (a ++ b).data = a.data ++ b.data := rfl

lemma goHasSuffix_append (a b : String) : goHasSuffix (a ++ b) b = true := by
  simp [goHasSuffix, strData_append]

lemma goTrimSuffix_append (a b : String) : goTrimSuffix (a ++ b) b = a := by
  rw [goTrimSuffix, if_pos (by simpa using goHasSuffix_append a b)]
  simp [strData_append]

lemma string_ne_empty_data {s : String} (h : s ≠ "") : s.data ≠ [] := by
  intro hd
  exact h (String.ext (by simpa using hd))

/-- A string whose last character is not a dot stays dot-suffix-free after
prepending anything. -/
lemma goHasSuffix_dot_append (a zd : String) (h1 : zd ≠ "")
    (h2 : goHasSuffix zd "." = false) : goHasSuffix (a ++ zd) "." = false := by
  have hzl : 1 ≤ zd.data.length := by
    have := string_ne_empty_data h1
    cases hz : zd.data with
    | nil => exact absurd hz this
    | cons c cs => simp
  have hlen : (("." : String)).data.length = 1 := rfl
  rw [goHasSuffix, hlen] at h2 ⊢
  rw [Bool.and_eq_false_iff] at h2 ⊢
  rcases h2 with h2 | h2
  · exfalso
    simp only [decide_eq_false_iff_not] at h2
    omega
  · right
    rw [beq_eq_false_iff_ne] at h2 ⊢
    intro hc
    apply h2
    rw [strData_append, List.length_append] at hc
    have harith : a.data.length + zd.data.length - 1 =
        a.data.length + (zd.data.length - 1) := by omega
    rw [harith, List.drop_append] at hc
    exact hc

end Omglol

namespace Omglol

/-- Claim C4: for every non-apex zone-relative name `n` (a name other than
`"@"` and `""` that is already relative to the zone, i.e. fixed by
`relativeName`) and every well-formed zone `z` (nonempty after removing the
trailing dot, and with no further trailing dot), converting `n` to the
provider-native name and back is the identity:
`toRelativeName (toProviderName n z) z = n`. -/
theorem roundtrip_nonapex (n z : String)
    (hz1 : goTrimSuffix z "." ≠ "")
    (hz2 : goHasSuffix (goTrimSuffix z ".") "." = false)
    (hn1 : n ≠ "") (hn2 : n ≠ "@")
    (hrel : relativeName n z = n) :
    toRelativeName (toProviderName n z) z = n := by
  have hb1 : (n == "") = false := beq_eq_false_iff_ne.mpr hn1
  have hb2 : (n == "@") = false := beq_eq_false_iff_ne.mpr hn2
  have hp : toProviderName n z = n := by
    simp only [toProviderName]
    rw [hrel, hb1, hb2]
    simp
  rw [hp]
  have key : relativeName (n ++ "." ++ goTrimSuffix z ".") z = n := by
    have hstep1 : goTrimSuffix (n ++ "." ++ goTrimSuffix z ".") "." =
        n ++ "." ++ goTrimSuffix z "." := by
      have hno := goHasSuffix_dot_append (n ++ ".") (goTrimSuffix z ".") hz1 hz2
      rw [goTrimSuffix, if_neg (by simp [hno])]
    have hstep2 : goTrimSuffix (n ++ "." ++ goTrimSuffix z ".") (goTrimSuffix z ".") =
        n ++ "." := goTrimSuffix_append (n ++ ".") (goTrimSuffix z ".")
    have hstep3 : goTrimSuffix (n ++ ".") "." = n := goTrimSuffix_append n "."
    simp only [relativeName]
    rw [hstep1, hstep2, hstep3]
  simp only [toRelativeName]
  rw [key, hb1]
  simp

/-- Witness for `roundtrip_nonapex` at the name `_acme-challenge` in the
zone `g.omg.lol.`. -/
theorem roundtrip_nonapex_witness :
    goTrimSuffix "g.omg.lol." "." ≠ "" ∧
    goHasSuffix (goTrimSuffix "g.omg.lol." ".") "." = false ∧
    relativeName "_acme-challenge" "g.omg.lol." = "_acme-challenge" ∧
    toRelativeName (toProviderName "_acme-challenge" "g.omg.lol.") "g.omg.lol." =
      "_acme-challenge" :=
  ⟨by decide, by decide, by decide,
   roundtrip_nonapex "_acme-challenge" "g.omg.lol." (by decide) (by decide)
     (by decide) (by decide) (by decide)⟩

end Omglol

namespace Omglol

/-- Sequential composition of operation results: when the first part ended
in an error its result stands alone; otherwise the second part's calls and
records are appended and its error is kept. -/
def seqComp (a b : OpResult) : OpResult :=
  match a.2.2 with
  | some e => (a.1, a.2.1, some e)
  | none => (a.1 ++ b.1, a.2.1 ++ b.2.1, b.2.2)

lemma appendRecords_split (p : Provider) (st : Store) (zone : String)
    (xs ys : List LibdnsRR) :
    appendRecords p st zone (xs ++ ys) =
      seqComp (appendRecords p st zone xs) (appendRecords p st zone ys) := by
  induction xs with
  | nil =>
    simp [appendRecords, seqComp]
  | cons x xs ih =>
    simp only [List.cons_append, appendRecords, List.append_eq]
    split
    · simp [seqComp]
    · rw [ih]
      rcases h1 : appendRecords p st zone xs with ⟨c1, r1, e1⟩
      cases e1 <;> simp [seqComp, h1]

lemma setLoop_split (p : Provider) (st : Store) (zone : String)
    (existing : List OmglolRecord) (xs ys : List LibdnsRR) :
    setLoop p st zone existing (xs ++ ys) =
      seqComp (setLoop p st zone existing xs) (setLoop p st zone existing ys) := by
  induction xs with
  | nil =>
    simp [setLoop, seqComp]
  | cons x xs ih =>
    simp only [List.cons_append, setLoop, List.append_eq]
    split
    · split
      · simp [seqComp]
      · rw [ih]
        rcases h1 : setLoop p st zone existing xs with ⟨c1, r1, e1⟩
        cases e1 <;> simp [seqComp, h1]
    · split
      · simp [seqComp]
      · rw [ih]
        rcases h1 : setLoop p st zone existing xs with ⟨c1, r1, e1⟩
        cases e1 <;> simp [seqComp, h1]

lemma deleteOuter_split (p : Provider) (st : Store) (zone : String)
    (existing : List OmglolRecord) (xs ys : List LibdnsRR) :
    deleteOuter p st zone existing (xs ++ ys) =
      seqComp (deleteOuter p st zone existing xs)
        (deleteOuter p st zone existing ys) := by
  induction xs with
  | nil =>
    simp [deleteOuter, seqComp]
  | cons x xs ih =>
    simp only [List.cons_append, deleteOuter, List.append_eq]
    rcases h1 : deleteInner p st zone x (libdnsRecordToPayload x zone).name existing
      with ⟨c1, d1, e1⟩
    cases e1 with
    | some e => simp [seqComp, h1]
    | none =>
      rw [ih]
      rcases h2 : deleteOuter p st zone existing xs with ⟨c2, d2, e2⟩
      cases e2 <;> simp [seqComp, h1, h2]

end Omglol

namespace Omglol

lemma setLoop_nil_existing (p : Provider) (st : Store) (zone : String) :
    ∀ records, setLoop p st zone [] records = appendRecords p st zone records := by
  intro records
  induction records with
  | nil => rfl
  | cons r rest ih =>
    simp only [setLoop, appendRecords, List.find?_nil]
    split
    · rfl
    · rw [ih]

/-- When every delete call succeeds, the inner loop of `DeleteRecords`
deletes exactly the existing records satisfying `delMatch`, in
existing-record order. -/
lemma deleteInner_all_ok (p : Provider) (st : Store) (zone : String)
    (record : LibdnsRR) (payName : String)
    (hd : ∀ id, st.deleteRes id = Except.ok ()) :
    ∀ es, deleteInner p st zone record payName es =
      ((es.filter (delMatch zone record payName)).map
         (fun e => ApiCall.delete p.address e.recordID),
       (es.filter (delMatch zone record payName)).map
         (fun e => e.toLibdnsRecord zone),
       none) := by
  intro es
  induction es with
  | nil => simp [deleteInner]
  | cons e rest ih =>
    have hdd := hd e.recordID
    cases hm : delMatch zone record payName e with
    | false => simp [deleteInner, hm, ih, List.filter_cons]
    | true => simp [deleteInner, hm, hdd, ih, List.filter_cons]

end Omglol

namespace Omglol

/-! ### Shared scenario fixtures -/

def pG : Provider := { apiKey := "key", address := "g" }

def zoneG : String := "g.omg.lol."

def acmeExisting : OmglolRecord :=
  { ID := .num 1, type := "TXT", name := "_acme-challenge.g", data := "old",
    TTL := .num 3600 }

def stSet : Store :=
  { listRes := .ok [acmeExisting]
    createRes := fun _ => .error "unexpected create"
    updateRes := fun _ _ => .ok ()
    deleteRes := fun _ => .error "unexpected delete" }

def acmeInput : LibdnsRR :=
  { name := "_acme-challenge", ttl := 300 * nsPerSec, type := "TXT", data := "new" }

/-- Claim C1 (divergence witnessed): in zone `g.omg.lol.` with the single
existing record `{id 1, TXT, _acme-challenge.g, old}`, `SetRecords` on
`{_acme-challenge, TXT, new, 300 s}` issues exactly one update call
(address `g`, id `1`, payload `{TXT, _acme-challenge, new, 300}`) and no
create call — but the returned record carries a TTL of 3600 seconds, not
the claimed 300: the payload's Go `int` TTL stored in the dynamically
typed TTL field falls into the default branch of `ttlSeconds`. -/
theorem set_update_ttl_eval :
    setRecords pG stSet zoneG [acmeInput] =
      ([ApiCall.update "g" "1"
          { type := "TXT", name := "_acme-challenge", data := "new", ttl := 300 }],
       [{ name := "_acme-challenge", ttl := 3600 * nsPerSec, type := "TXT",
          data := "new" }],
       none) ∧
    (3600 : Int) * nsPerSec ≠ 300 * nsPerSec := by
  decide

def apexExisting : OmglolRecord :=
  { ID := .num 11, type := "A", name := "g", data := "185.26.156.100",
    TTL := .num 3600 }

def stApex : Store :=
  { listRes := .ok [apexExisting]
    createRes := fun _ => .error "unexpected create"
    updateRes := fun _ _ => .error "unexpected update"
    deleteRes := fun _ => .error "unexpected delete" }

/-- Claim C2 (divergence witnessed): converting the bare address back to a
zone-relative name does NOT yield the apex marker: `toRelativeName`
appends the whole zone to the provider name, so the apex record `g` comes
back as `"g"`, not `"@"`, and `GetRecords` on a provider record whose name
equals the address returns a record named `"g"`. -/
theorem apex_relative_name_eval :
    toRelativeName (zoneAddress zoneG) zoneG = "g" ∧
    getRecords pG stApex zoneG =
      .ok [{ name := "g", ttl := 3600 * nsPerSec, type := "A",
             data := "185.26.156.100" }] ∧
    ("g" : String) ≠ "@" := by
  refine ⟨by decide, ?_, by decide⟩
  rfl

/-- The matching rule as the specification words it, with the vacuous
candidate-apex branch removed: the candidate label (the provider name with
one trailing `.<address>` stripped) matches the relative name
case-insensitively, or the raw provider name does. -/
def namesMatchSpec (providerName relName zone : String) : Bool :=
  let address := zoneAddress zone
  let candidate := goTrimSuffix providerName ("." ++ address)
  equalFold candidate relName || equalFold providerName relName

/-- Counterexample to claim C3 as stated: for provider name `g`, relative
name `xyz` and zone `g.omg.lol.`, the candidate label equals the address
(`g`), so the claimed candidate-apex disjunct would return `true` — but
`namesMatch` returns `false` (the `apiLabel == address` branch in the code
is a no-op reassignment, not a match). -/
theorem namesMatch_apex_label_counterexample :
    goTrimSuffix "g" ("." ++ zoneAddress "g.omg.lol.") = zoneAddress "g.omg.lol." ∧
    namesMatch "g" "xyz" "g.omg.lol." = false := by
  decide

/-- Claim C3 (amended): `namesMatch` computes the address as the zone's
first label, strips one trailing `.<address>` from the provider name to
get a candidate label, and returns true exactly when the candidate label
case-insensitively equals the relative name or the raw provider name
case-insensitively equals the relative name — the label-equals-address
check adds no further matches; in particular
`namesMatch "ACME.g" "acme" "g.omg.lol." = true`. -/
theorem namesMatch_amended :
    (∀ apiName payloadName zone,
      namesMatch apiName payloadName zone = namesMatchSpec apiName payloadName zone) ∧
    namesMatch "ACME.g" "acme" "g.omg.lol." = true := by
  constructor
  · intro a pn z
    simp only [namesMatch, namesMatchSpec, zoneAddress]
    split
    next h => rw [eq_of_beq h]
    next h => rfl
  · decide

end Omglol

namespace Omglol

/-- Claim C5: when the fetched existing-record set is empty, `SetRecords`
behaves identically to `AppendRecords` on the same zone and input list —
the same create calls, results and error. -/
theorem set_empty_existing_eq_append (p : Provider) (st : Store) (zone : String)
    (records : List LibdnsRR) (h : st.listRes = Except.ok []) :
    setRecords p st zone records = appendRecords p st zone records := by
  simp only [setRecords, h]
  exact setLoop_nil_existing p st zone records

def stEmpty : Store :=
  { listRes := .ok []
    createRes := fun pl =>
      .ok { ID := .str "created", type := pl.type, name := pl.name,
            data := pl.data, TTL := .num pl.ttl }
    updateRes := fun _ _ => .ok ()
    deleteRes := fun _ => .ok () }

def recNew : LibdnsRR :=
  { name := "sub", ttl := 60 * nsPerSec, type := "A", data := "1.2.3.4" }

/-- Witness for `set_empty_existing_eq_append` on a one-record input
against a store whose list response is empty. -/
theorem set_empty_existing_eq_append_witness :
    stEmpty.listRes = Except.ok [] ∧
    setRecords pG stEmpty zoneG [recNew] = appendRecords pG stEmpty zoneG [recNew] :=
  ⟨rfl, set_empty_existing_eq_append pG stEmpty zoneG [recNew] rfl⟩

/-- Claim C6: for a single input record, `DeleteRecords` (when every
delete call succeeds) deletes exactly the existing records whose type
matches case-insensitively, whose name matches via `namesMatch`, and —
when the input's data is non-empty — whose data is exactly equal; every
match is deleted (not just the first) and the deleted records are returned
in existing-record order. -/
theorem delete_matches_filter (p : Provider) (st : Store) (zone : String)
    (r : LibdnsRR) (es : List OmglolRecord)
    (hl : st.listRes = Except.ok es)
    (hd : ∀ id, st.deleteRes id = Except.ok ()) :
    deleteRecords p st zone [r] =
      ((es.filter (delMatch zone r (libdnsRecordToPayload r zone).name)).map
         (fun e => ApiCall.delete p.address e.recordID),
       (es.filter (delMatch zone r (libdnsRecordToPayload r zone).name)).map
         (fun e => e.toLibdnsRecord zone),
       none) := by
  simp only [deleteRecords, hl]
  simp only [deleteOuter]
  rw [deleteInner_all_ok p st zone r (libdnsRecordToPayload r zone).name hd es]
  simp [deleteOuter]

def dupA : OmglolRecord :=
  { ID := .num 1, type := "TXT", name := "_acme-challenge.g", data := "v1",
    TTL := .num 300 }

def dupB : OmglolRecord :=
  { ID := .num 2, type := "TXT", name := "_acme-challenge.g", data := "v2",
    TTL := .num 300 }

def stDup : Store :=
  { listRes := .ok [dupA, dupB]
    createRes := fun _ => .error "unexpected create"
    updateRes := fun _ _ => .error "unexpected update"
    deleteRes := fun _ => .ok () }

def delAll : LibdnsRR :=
  { name := "_acme-challenge", ttl := 0, type := "TXT", data := "" }

/-- Witness for `delete_matches_filter`: two duplicate existing records
matching type and name, input record without data — both are deleted and
both appear in the result in existing-record order. -/
theorem delete_matches_filter_witness :
    stDup.listRes = Except.ok [dupA, dupB] ∧
    deleteRecords pG stDup zoneG [delAll] =
      ([ApiCall.delete "g" "1", ApiCall.delete "g" "2"],
       [dupA.toLibdnsRecord zoneG, dupB.toLibdnsRecord zoneG], none) :=
  ⟨rfl,
   (delete_matches_filter pG stDup zoneG delAll [dupA, dupB] rfl
      (fun _ => rfl)).trans (by decide)⟩

/-- Claim C7: the three mutating operations process their input strictly
left to right and stop at the first error: on a split input `xs ++ ys`,
each operation's calls, results and error are the sequential composition
of the two halves, where a failing first half returns its partial calls
and records untouched (nothing rolled back) and the second half is never
processed. -/
theorem ops_fail_fast_split (p : Provider) (st : Store) (zone : String)
    (xs ys : List LibdnsRR) :
    appendRecords p st zone (xs ++ ys) =
        seqComp (appendRecords p st zone xs) (appendRecords p st zone ys) ∧
    (∀ existing, setLoop p st zone existing (xs ++ ys) =
        seqComp (setLoop p st zone existing xs) (setLoop p st zone existing ys)) ∧
    (∀ existing, deleteOuter p st zone existing (xs ++ ys) =
        seqComp (deleteOuter p st zone existing xs)
          (deleteOuter p st zone existing ys)) :=
  ⟨appendRecords_split p st zone xs ys,
   fun existing => setLoop_split p st zone existing xs ys,
   fun existing => deleteOuter_split p st zone existing xs ys⟩

/-- Claim C8: the provider TTL field is coerced to an integer count of
seconds whether it arrives as a number or a string: the string `"120"`
yields 120, a numeric TTL yields its value, and an unparseable string or
any other value shape yields the 3600 default; listing converts that
count into a nanosecond duration. -/
theorem ttl_coercion (r : OmglolRecord) (zone : String) :
    OmglolRecord.ttlSeconds { r with TTL := .str "120" } = 120 ∧
    (∀ s, goAtoi s = none → OmglolRecord.ttlSeconds { r with TTL := .str s } = 3600) ∧
    (∀ n, OmglolRecord.ttlSeconds { r with TTL := .num n } = n) ∧
    (∀ n, OmglolRecord.ttlSeconds { r with TTL := .intVal n } = 3600) ∧
    OmglolRecord.ttlSeconds { r with TTL := .null } = 3600 ∧
    (r.toLibdnsRecord zone).ttl = r.ttlSeconds * nsPerSec := by
  refine ⟨rfl, ?_, fun n => rfl, fun n => rfl, rfl, rfl⟩
  intro s hs
  simp [OmglolRecord.ttlSeconds, hs]

def recTtlStr : OmglolRecord :=
  { ID := .num 9, type := "A", name := "g", data := "x", TTL := .str "120" }

/-- Witness for `ttl_coercion` at the parseable string `"120"` and the
unparseable string `"12a"`. -/
theorem ttl_coercion_witness :
    goAtoi "12a" = none ∧
    OmglolRecord.ttlSeconds { recTtlStr with TTL := .str "120" } = 120 ∧
    OmglolRecord.ttlSeconds { recTtlStr with TTL := .str "12a" } = 3600 :=
  ⟨by decide, (ttl_coercion recTtlStr zoneG).1,
   (ttl_coercion recTtlStr zoneG).2.1 "12a" (by decide)⟩

def subSecondRec : LibdnsRR :=
  { name := "x", ttl := 500000000, type := "TXT", data := "d" }

/-- Counterexample to claim C9 as stated: a record with a positive TTL of
half a second (500000000 ns) gets a payload TTL of 300, not its TTL in
whole seconds (0): the 300 default applies to every TTL whose whole-second
truncation is not positive, not only to zero or negative TTLs. -/
theorem payload_ttl_subsecond_counterexample :
    (0 : Int) < subSecondRec.ttl ∧
    (libdnsRecordToPayload subSecondRec zoneG).ttl = 300 ∧
    Int.tdiv subSecondRec.ttl nsPerSec = 0 ∧
    (libdnsRecordToPayload subSecondRec zoneG).ttl ≠
      Int.tdiv subSecondRec.ttl nsPerSec := by
  decide

/-- Claim C9 (amended): the create/update payload carries a TTL of 300
seconds whenever the input record's TTL truncates to zero or fewer whole
seconds (zero, negative, or below one second), and the truncated
whole-second count whenever that truncation is positive. -/
theorem payload_ttl_amended (record : LibdnsRR) (zone : String) :
    (Int.tdiv record.ttl nsPerSec ≤ 0 →
      (libdnsRecordToPayload record zone).ttl = 300) ∧
    (0 < Int.tdiv record.ttl nsPerSec →
      (libdnsRecordToPayload record zone).ttl = Int.tdiv record.ttl nsPerSec) := by
  constructor
  · intro h
    simp only [libdnsRecordToPayload]
    rw [if_pos h]
  · intro h
    simp only [libdnsRecordToPayload]
    rw [if_neg (by omega)]

def negTtlRec : LibdnsRR :=
  { name := "x", ttl := -5 * nsPerSec, type := "TXT", data := "d" }

def posTtlRec : LibdnsRR :=
  { name := "x", ttl := 300 * nsPerSec, type := "TXT", data := "d" }

/-- Witness for `payload_ttl_amended` at a negative TTL (-5 s) and a
positive TTL (300 s). -/
theorem payload_ttl_amended_witness :
    Int.tdiv negTtlRec.ttl nsPerSec ≤ 0 ∧
    (libdnsRecordToPayload negTtlRec zoneG).ttl = 300 ∧
    0 < Int.tdiv posTtlRec.ttl nsPerSec ∧
    (libdnsRecordToPayload posTtlRec zoneG).ttl = Int.tdiv posTtlRec.ttl nsPerSec :=
  ⟨by decide, (payload_ttl_amended negTtlRec zoneG).1 (by decide),
   by decide, (payload_ttl_amended posTtlRec zoneG).2 (by decide)⟩

/-- Claim C10: `DeleteRecords` matches every input record against the
existing-record list fetched once at the start, never shrinking it: on a
two-record input (all delete calls succeeding) the call trace and the
result are the concatenation of each input's full match set over the same
`es`, so an existing record matched by both inputs is deleted and reported
once per matching input. -/
theorem delete_rematch_per_input (p : Provider) (st : Store) (zone : String)
    (r1 r2 : LibdnsRR) (es : List OmglolRecord)
    (hl : st.listRes = Except.ok es)
    (hd : ∀ id, st.deleteRes id = Except.ok ()) :
    deleteRecords p st zone [r1, r2] =
      ((es.filter (delMatch zone r1 (libdnsRecordToPayload r1 zone).name)).map
         (fun e => ApiCall.delete p.address e.recordID) ++
       (es.filter (delMatch zone r2 (libdnsRecordToPayload r2 zone).name)).map
         (fun e => ApiCall.delete p.address e.recordID),
       (es.filter (delMatch zone r1 (libdnsRecordToPayload r1 zone).name)).map
         (fun e => e.toLibdnsRecord zone) ++
       (es.filter (delMatch zone r2 (libdnsRecordToPayload r2 zone).name)).map
         (fun e => e.toLibdnsRecord zone),
       none) := by
  simp only [deleteRecords, hl]
  simp only [deleteOuter]
  rw [deleteInner_all_ok p st zone r1 (libdnsRecordToPayload r1 zone).name hd es,
    deleteInner_all_ok p st zone r2 (libdnsRecordToPayload r2 zone).name hd es]
  simp [deleteOuter]

def exOne : OmglolRecord :=
  { ID := .num 7, type := "TXT", name := "_acme-challenge.g", data := "v",
    TTL := .num 300 }

def stOne : Store :=
  { listRes := .ok [exOne]
    createRes := fun _ => .error "unexpected create"
    updateRes := fun _ _ => .error "unexpected update"
    deleteRes := fun _ => .ok () }

def delFirst : LibdnsRR :=
  { name := "_acme-challenge", ttl := 0, type := "TXT", data := "" }

def delSecond : LibdnsRR :=
  { name := "_acme-challenge", ttl := 120 * nsPerSec, type := "txt", data := "v" }

/-- Witness for `delete_rematch_per_input`: two input records both match
the single existing record with id 7 — the delete call for id 7 is issued
twice and the record appears twice in the result. -/
theorem delete_rematch_per_input_witness :
    stOne.listRes = Except.ok [exOne] ∧
    deleteRecords pG stOne zoneG [delFirst, delSecond] =
      ([ApiCall.delete "g" "7", ApiCall.delete "g" "7"],
       [exOne.toLibdnsRecord zoneG, exOne.toLibdnsRecord zoneG], none) :=
  ⟨rfl,
   (delete_rematch_per_input pG stOne zoneG delFirst delSecond [exOne] rfl
      (fun _ => rfl)).trans (by decide)⟩

end Omglol
